import Mathlib

set_option maxRecDepth 100000

/-!
Verification of the wildlifetag-automator binary decoding pipeline.

The Python source is embedded shallowly: byte strings become `List Nat`
(each element a byte value `< 256`), machine integers become `Nat` with
explicit `% 2^32` where numpy/uint32 overflow matters, fallible code
returns `Option`, and filesystem effects (sidecar writes, output files)
are threaded explicitly as values.
-/

namespace WildlifeTag

/-- `struct.unpack('<I', ...)`: little-endian 32-bit word from four bytes. -/
def u32le (b0 b1 b2 b3 : Nat) : Nat :=
  b0 + 256 * b1 + 65536 * b2 + 16777216 * b3

/-- GPS word swap from `gps_parser.py` line 69:
`swapped_data = (raw_data << 16) | (raw_data >> 16)` on numpy `<u4`
arrays, where the left shift wraps modulo 2^32. -/
def gpsWordSwap (w : Nat) : Nat :=
  ((w <<< 16) % 2 ^ 32) ||| (w >>> 16)

lemma mul_two_pow_lor_of_lt {a b : Nat} (hb : b < 2 ^ 16) :
    (a * 2 ^ 16) ||| b = a * 2 ^ 16 + b := by
  apply Nat.eq_of_testBit_eq
  intro i
  rw [Nat.testBit_lor]
  rcases Nat.lt_or_ge i 16 with hi | hi
  · have hL : (a * 2 ^ 16).testBit i = false := by
      rw [← Nat.shiftLeft_eq, Nat.testBit_shiftLeft]
      simp [Nat.not_le_of_lt hi]
    have hmod : (a * 2 ^ 16 + b) % 2 ^ 16 = b := by
      conv_lhs => rw [Nat.mul_comm a]
      rw [Nat.mul_add_mod, Nat.mod_eq_of_lt hb]
    have hR : (a * 2 ^ 16 + b).testBit i = b.testBit i := by
      conv_rhs => rw [← hmod]
      rw [Nat.testBit_mod_two_pow]
      simp [hi]
    rw [hL, hR]
    simp
  · have hRb : b.testBit i = false :=
      Nat.testBit_lt_two_pow
        (lt_of_lt_of_le hb (Nat.pow_le_pow_right (by norm_num) hi))
    have hdiv : (a * 2 ^ 16 + b) / 2 ^ 16 = a := by
      rw [Nat.mul_comm a, Nat.mul_add_div (Nat.two_pow_pos 16),
        Nat.div_eq_of_lt hb]
      omega
    have hi' : i = 16 + (i - 16) := by omega
    have hR : (a * 2 ^ 16 + b).testBit i = a.testBit (i - 16) := by
      conv_lhs => rw [hi']
      rw [← Nat.testBit_shiftRight, Nat.shiftRight_eq_div_pow, hdiv]
    have hL : (a * 2 ^ 16).testBit i = a.testBit (i - 16) := by
      rw [← Nat.shiftLeft_eq, Nat.testBit_shiftLeft]
      simp [hi]
    rw [hL, hR, hRb]
    simp

lemma gpsWordSwap_eq (w : Nat) (hw : w < 2 ^ 32) :
    gpsWordSwap w = (w % 2 ^ 16) * 2 ^ 16 + w / 2 ^ 16 := by
  unfold gpsWordSwap
  rw [Nat.shiftLeft_eq, Nat.shiftRight_eq_div_pow]
  have h1 : (w * 2 ^ 16) % 2 ^ 32 = (w % 2 ^ 16) * 2 ^ 16 := by
    have h32 : (2 : Nat) ^ 32 = 2 ^ 16 * 2 ^ 16 := by norm_num
    rw [h32, Nat.mul_mod_mul_right]
  rw [h1]
  exact mul_two_pow_lor_of_lt (by omega)

/-- Claim C7: for every 32-bit payload word `w`, the GPS decoder emits
`((w << 16) | (w >> 16)) & 0xFFFFFFFF`, the swap is an involution
(`swap (swap w) = w`), and `0xAABBCCDD` is emitted as `0xCCDDAABB`. -/
theorem gps_word_swap_involution (w : Nat) (hw : w < 2 ^ 32) :
    gpsWordSwap (gpsWordSwap w) = w ∧
    gpsWordSwap w = ((w <<< 16) ||| (w >>> 16)) % 2 ^ 32 ∧
    gpsWordSwap 0xAABBCCDD = 0xCCDDAABB := by
  refine ⟨?_, ?_, by decide⟩
  · have h1 := gpsWordSwap_eq w hw
    have hlt : gpsWordSwap w < 2 ^ 32 := by rw [h1]; omega
    rw [gpsWordSwap_eq _ hlt, h1]
    omega
  · rw [gpsWordSwap_eq w hw, Nat.shiftLeft_eq, Nat.shiftRight_eq_div_pow]
    rw [mul_two_pow_lor_of_lt (by omega : w / 2 ^ 16 < 2 ^ 16)]
    omega

/-- Witness for C7 at the concrete word `0xAABBCCDD`. -/
theorem gps_word_swap_involution_witness :
    (0xAABBCCDD : Nat) < 2 ^ 32 ∧
    gpsWordSwap (gpsWordSwap 0xAABBCCDD) = 0xAABBCCDD :=
  ⟨by decide, (gps_word_swap_involution 0xAABBCCDD (by decide)).1⟩

/-! ## Shared header helpers (`binary_utils.py`, `imu_parser.py`) -/

/-- `_bcd_to_int` from `imu_parser.py` line 16 and `bcd_to_int` from
`binary_utils.py` line 8: `(byte_val // 16) * 10 + (byte_val % 16)`. -/
def bcd_to_int (b : Nat) : Nat :=
  (b / 16) * 10 + b % 16

/-- Little-endian u32 read at `off` from a byte list (`struct.unpack('<I', ...)`
on a 4-byte slice; callers guard the length so the default is never used). -/
def wordAt (l : List Nat) (off : Nat) : Nat :=
  u32le (l.getD off 0) (l.getD (off + 1) 0) (l.getD (off + 2) 0)
    (l.getD (off + 3) 0)

/-- Model of a Python `datetime` value (the decoded calendar instant). -/
structure PyDateTime where
  year : Nat
  month : Nat
  day : Nat
  hour : Nat
  minute : Nat
  second : Nat
deriving DecidableEq, Repr

/-- Day count of a month, Gregorian rules, as `datetime` enforces. -/
def daysInMonth (y m : Nat) : Nat :=
  if m = 2 then
    if (y % 4 = 0 ∧ y % 100 ≠ 0) ∨ y % 400 = 0 then 29 else 28
  else if m = 4 ∨ m = 6 ∨ m = 9 ∨ m = 11 then 30
  else 31

/-- `datetime(year, month, day, h, m, s)` succeeds iff this holds; otherwise
it raises `ValueError` and the parsers substitute the file mtime. -/
def isValidDateTime (y mo d hh mm ss : Nat) : Bool :=
  decide (1 ≤ y) && decide (y ≤ 9999) && decide (1 ≤ mo) && decide (mo ≤ 12) &&
    decide (1 ≤ d) && decide (d ≤ daysInMonth y mo) && decide (hh ≤ 23) &&
    decide (mm ≤ 59) && decide (ss ≤ 59)

/-- `.decode('ascii')`: succeeds iff every byte is `≤ 127`. -/
def asciiDecode? (bs : List Nat) : Option String :=
  if bs.all (· ≤ 127) then some (String.mk (bs.map Char.ofNat)) else none

/-- Uppercase-hex digit for a nibble. -/
def hexDigit (n : Nat) : Char :=
  Char.ofNat (if n < 10 then 48 + n else 55 + n)

/-- Python `f"{n:X}"`: uppercase hexadecimal without prefix (`0 ↦ "0"`). -/
def toHexUpper (n : Nat) : String :=
  if n < 16 then String.mk [hexDigit n]
  else toHexUpper (n / 16) ++ String.mk [hexDigit (n % 16)]
termination_by n
decreasing_by omega

/-- Index of the last character satisfying `p` (auxiliary scanner). -/
def lastIdxAux (p : Char → Bool) : List Char → Nat → Option Nat → Option Nat
  | [], _, acc => acc
  | c :: t, i, acc => lastIdxAux p t (i + 1) (if p c then some i else acc)

/-- Python `str.rfind` restricted to a character class: index of the last
matching character, or `none`. -/
def rfindIdx (cs : List Char) (p : Char → Bool) : Option Nat :=
  lastIdxAux p cs 0 none

/-- `os.path.splitext(p)[0]`: the path without its extension. The extension
starts at the last dot after the last path separator, unless the basename
consists solely of leading dots up to that point. -/
def splitextStem (s : String) : String :=
  let cs := s.data
  let sepIndex : Int :=
    (rfindIdx cs (fun c => c == '/' || c == '\\')).elim (-1) Int.ofNat
  let dotIndex : Int := (rfindIdx cs (fun c => c == '.')).elim (-1) Int.ofNat
  if dotIndex > sepIndex then
    let filenameIndex := (sepIndex + 1).toNat
    let dotN := dotIndex.toNat
    if ((cs.drop filenameIndex).take (dotN - filenameIndex)).any
        (fun c => c ≠ '.') then
      String.mk (cs.take dotN)
    else s
  else s

/-! ## IMU record decoder (`imu_parser.py`) -/

/-- The header is exactly 150 bytes; payload records start at offset 150. -/
def IMU_HEADER_SIZE : Nat := 150

/-- The exact column names, in order, of the data dict built at
`imu_parser.py` lines 157-171. -/
def imu_columns : List String :=
  ["Time", "Acc X [mg]", "Acc Y [mg]", "Acc Z [mg]",
   "Gyro X [dps]", "Gyro Y [dps]", "Gyro Z [dps]",
   "Mag X [mGauss]", "Mag Y [mGauss]", "Mag Z [mGauss]",
   "Temperature [C]", "Bar Pressure [hPa]"]

/-- One row of the produced table. Float32 cells are carried as their raw
little-endian 32-bit words (the decoder never rescales them); the constant
`0.0` of the temperature/pressure channels is the raw word `0`.
`Time[i] = start + timeIdx / sampleRate` seconds. -/
structure ImuRow where
  timeIdx : Nat
  gyro : Nat × Nat × Nat
  acc : Nat × Nat × Nat
  mag : Nat × Nat × Nat
  temperature : Nat
  barPressure : Nat
deriving DecidableEq, Repr

/-- The tabular result (`pd.DataFrame(data)` at `imu_parser.py` line 173). -/
structure ImuTable where
  columns : List String
  start : PyDateTime
  sampleRateUsed : Nat
  rows : List ImuRow
deriving DecidableEq, Repr

/-- Row `i` of the payload: one 42-byte record, gyro triple first
(bytes 0-11), then acc (12-23), then mag (24-35), 6 opaque bytes. -/
def imuRowAt (payload : List Nat) (i : Nat) : ImuRow :=
  let w := fun off => wordAt payload (42 * i + off)
  { timeIdx := i
    gyro := (w 0, w 4, w 8)
    acc := (w 12, w 16, w 20)
    mag := (w 24, w 28, w 32)
    temperature := 0
    barPressure := 0 }

/-- `generate_metadata_file` from `imu_parser.py` lines 20-43: the sidecar
path (`os.path.splitext(filepath)[0] + ".txt"`) and its lines, with
hard-coded `HWID:0`, `FWID:112`, `WinRate:0`, `WinLen:0`, `Config1..3:0`. -/
def generate_metadata_file (filepath deviceIdHex sensor : String)
    (sampleRate config0 bitmask : Nat) : String × List String :=
  (splitextStem filepath ++ ".txt",
   ["DeviceID:" ++ deviceIdHex,
    "HWID:0",
    "FWID:112",
    "Sensor:" ++ sensor,
    "SampleRate:" ++ toString sampleRate,
    "WinRate:0",
    "WinLen:0",
    "Config0:" ++ toString config0,
    "Config1:0", "Config2:0", "Config3:0",
    "Bitmask:" ++ toHexUpper bitmask])

/-- Result of `parse_imu_file`: the returned table (or `None`) together with
the sidecar write effect (path and lines), when it happened. -/
structure ImuParseResult where
  table : Option ImuTable
  sidecar : Option (String × List String)
deriving DecidableEq

/-- The `meta` dict packed at `imu_parser.py` lines 113-120: DeviceID is
already rendered as uppercase hex, SampleRate is substituted with 50 when
the header field is 0, Start_Time falls back to the file mtime when the
BCD date is invalid. -/
structure ImuMeta where
  deviceIdHex : String
  sensor : String
  sampleRate : Nat
  bitmask : Nat
  config0 : Nat
  startTime : PyDateTime
deriving DecidableEq, Repr

/-- Header decoding of `parse_imu_file` (lines 82-120); assumes at least
140 readable bytes (otherwise the Python code raises first). -/
def imuMetaOf (bytes : List Nat) (mtime : PyDateTime) : ImuMeta :=
  let header := bytes.take IMU_HEADER_SIZE
  let device_id := wordAt header 4
  let sensor_name :=
    (asciiDecode? (((header.drop 8).take 16).takeWhile (· ≠ 0))).getD "IMU10"
  let sample_rate := wordAt header 28
  let h := bcd_to_int (header.getD 132 0)
  let m := bcd_to_int (header.getD 133 0)
  let s := bcd_to_int (header.getD 134 0)
  let month := bcd_to_int (header.getD 137 0)
  let day := bcd_to_int (header.getD 138 0)
  let year := 2000 + bcd_to_int (header.getD 139 0)
  { deviceIdHex := toHexUpper device_id
    sensor := sensor_name
    sampleRate := if sample_rate > 0 then sample_rate else 50
    bitmask := wordAt header 40
    config0 := wordAt header 44
    startTime :=
      if isValidDateTime year month day h m s then
        PyDateTime.mk year month day h m s
      else mtime }

/-- `parse_imu_file` from `imu_parser.py` lines 45-178. `file` is the raw
byte content (`none` = the path does not exist); `mtime` is the file's
last-modification instant, substituted when the BCD date is invalid.
Any header shorter than 140 bytes raises (unpack/index error) before the
sidecar write, so the whole call returns `None` with no sidecar. The
sidecar is generated (line 123) before the payload is read, so it is
written even when the payload holds zero records and the call then
returns `None` (line 142). -/
def parse_imu_file (filepath : String) (file : Option (List Nat))
    (mtime : PyDateTime) : ImuParseResult :=
  match file with
  | none => ⟨none, none⟩
  | some bytes =>
    if bytes.length < 140 then ⟨none, none⟩
    else
      let meta := imuMetaOf bytes mtime
      let payload := bytes.drop IMU_HEADER_SIZE
      let num := payload.length / 42
      { table :=
          if num = 0 then none
          else
            some
              { columns := imu_columns
                start := meta.startTime
                sampleRateUsed := meta.sampleRate
                rows := (List.range num).map (imuRowAt payload) }
        sidecar :=
          some
            (generate_metadata_file filepath meta.deviceIdHex meta.sensor
              meta.sampleRate meta.config0 meta.bitmask) }

/-! ## Concrete IMU inputs -/

/-- A file of exactly 150 zero bytes: valid (all-zero) header, empty payload. -/
def cf150 : List Nat := List.replicate 150 0

/-- A 192-byte all-zero file: valid header (`sample_rate = 0`), one 42-byte
record of zeros. -/
def cf192 : List Nat := List.replicate 192 0

/-- A concrete mtime used where the all-zero BCD date is invalid. -/
def mt0 : PyDateTime := ⟨2025, 1, 1, 0, 0, 0⟩

/-- The table `parse_imu_file` produces on `cf192`. -/
def cf192_table : ImuTable :=
  { columns := imu_columns
    start := mt0
    sampleRateUsed := 50
    rows := [{ timeIdx := 0, gyro := (0, 0, 0), acc := (0, 0, 0),
               mag := (0, 0, 0), temperature := 0, barPressure := 0 }] }

/-- The column list claimed by the specification (spec §4.2 step 4),
including the `Minute`, `Second`, `Milisecond` columns. Stated from the
spec's words for comparison with `imu_columns`, which is from the source. -/
def spec_c2_columns : List String :=
  ["Time", "Minute", "Second", "Milisecond",
   "Acc X [mg]", "Acc Y [mg]", "Acc Z [mg]",
   "Gyro X [dps]", "Gyro Y [dps]", "Gyro Z [dps]",
   "Mag X [mGauss]", "Mag Y [mGauss]", "Mag Z [mGauss]",
   "Temperature [C]", "Bar Pressure [hPa]"]

/-! ## IMU theorems -/

/-- Claim C1 (code bug): on a successful decode `parse_imu_file` returns a
bare 12-column table, not a `(table, header)` pair — evaluated at a concrete
192-byte file. The caller `main.py` line 149 destructures
`df, meta = parse_imu_file(filepath)`, which cannot succeed on a
single 12-column frame, so the stated pair contract is broken by the code. -/
theorem imu_parse_returns_bare_table :
    (parse_imu_file "a/b.BIN" (some cf192) mt0).table = some cf192_table ∧
    cf192_table.columns.length = 12 ∧ cf192_table.columns.length ≠ 2 := by
  decide

/-- Claim C2, counterexample: a successful decode whose column list is the
source's 12-name list, which differs from the 15-name list the claim
states (no `Minute`, `Second`, `Milisecond` columns exist). -/
theorem imu_columns_counterexample :
    ((parse_imu_file "a/b.BIN" (some cf192) mt0).table.map ImuTable.columns)
        = some imu_columns ∧
    imu_columns ≠ spec_c2_columns := by
  decide

/-- Claim C2 as amended: every successful IMU decode has exactly the columns
`Time, Acc X [mg], Acc Y [mg], Acc Z [mg], Gyro X [dps], Gyro Y [dps],
Gyro Z [dps], Mag X [mGauss], Mag Y [mGauss], Mag Z [mGauss],
Temperature [C], Bar Pressure [hPa]` in this order (no `Minute`/`Second`/
`Milisecond`), with Temperature and Bar Pressure constantly `0.0`. -/
theorem imu_columns_exact (fp : String) (file : Option (List Nat))
    (mt : PyDateTime) (t : ImuTable)
    (h : (parse_imu_file fp file mt).table = some t) :
    t.columns = imu_columns ∧
    ∀ r ∈ t.rows, r.temperature = 0 ∧ r.barPressure = 0 := by
  cases file with
  | none => simp [parse_imu_file] at h
  | some bytes =>
    simp only [parse_imu_file] at h
    by_cases hl : bytes.length < 140
    · rw [if_pos hl] at h
      simp at h
    · rw [if_neg hl] at h
      by_cases hz : (List.drop IMU_HEADER_SIZE bytes).length / 42 = 0
      · rw [if_pos hz] at h
        simp at h
      · rw [if_neg hz] at h
        have ht := Option.some.inj h
        subst ht
        refine ⟨rfl, ?_⟩
        intro r hr
        obtain ⟨i, _, rfl⟩ := List.mem_map.mp hr
        exact ⟨rfl, rfl⟩

/-- Witness for C2's amended theorem at the concrete 192-byte file. -/
theorem imu_columns_exact_witness :
    (parse_imu_file "a/b.BIN" (some cf192) mt0).table = some cf192_table ∧
    (cf192_table.columns = imu_columns ∧
      ∀ r ∈ cf192_table.rows, r.temperature = 0 ∧ r.barPressure = 0) :=
  ⟨by decide, imu_columns_exact "a/b.BIN" (some cf192) mt0 cf192_table
    (by decide)⟩

/-- Claim C3, counterexample: a 150-byte file (valid header, zero records)
makes `parse_imu_file` return `None` — not an empty table — while a
192-byte file whose `sample_rate` field is `0` decodes successfully (with
the substituted rate 50) instead of failing. -/
theorem imu_edge_counterexample :
    (parse_imu_file "a/b.BIN" (some cf150) mt0).table = none ∧
    wordAt (cf192.take 150) 28 = 0 ∧
    ((parse_imu_file "a/b.BIN" (some cf192) mt0).table.map
        ImuTable.sampleRateUsed) = some 50 := by
  decide

/-- Claim C3 as amended: with a readable 140-byte header, a payload with
zero 42-byte records makes the decoder return `None` (an error, not an
empty table), and `sample_rate = 0` does not fail the file: the decoder
substitutes 50 Hz and succeeds whenever at least one record is present. -/
theorem imu_edge_amended (fp : String) (bytes : List Nat) (mt : PyDateTime)
    (h : 140 ≤ bytes.length) :
    ((bytes.length - 150) / 42 = 0 →
      (parse_imu_file fp (some bytes) mt).table = none) ∧
    (wordAt (bytes.take 150) 28 = 0 → 1 ≤ (bytes.length - 150) / 42 →
      ∃ t, (parse_imu_file fp (some bytes) mt).table = some t ∧
        t.sampleRateUsed = 50) := by
  have hlen : (bytes.drop IMU_HEADER_SIZE).length = bytes.length - 150 := by
    simp [IMU_HEADER_SIZE]
  constructor
  · intro hnum
    simp only [parse_imu_file]
    rw [if_neg (by omega)]
    rw [if_pos (by rw [hlen]; exact hnum)]
  · intro hsr hnum
    simp only [parse_imu_file]
    rw [if_neg (by omega)]
    rw [if_neg (by rw [hlen]; omega)]
    refine ⟨_, rfl, ?_⟩
    simp only [imuMetaOf, List.take, IMU_HEADER_SIZE] at hsr ⊢
    simp [hsr]

/-- Witness for C3's amended theorem at the concrete files `cf150`
(zero records) and `cf192` (`sample_rate = 0`, one record). -/
theorem imu_edge_amended_witness :
    (140 ≤ cf150.length ∧
      (parse_imu_file "a/b.BIN" (some cf150) mt0).table = none) ∧
    (140 ≤ cf192.length ∧
      ∃ t, (parse_imu_file "a/b.BIN" (some cf192) mt0).table = some t ∧
        t.sampleRateUsed = 50) :=
  ⟨⟨by decide,
    (imu_edge_amended "a/b.BIN" cf150 mt0 (by decide)).1 (by decide)⟩,
   ⟨by decide,
    (imu_edge_amended "a/b.BIN" cf192 mt0 (by decide)).2 (by decide)
      (by decide)⟩⟩

/-- Claim C10: for every file whose header parses (≥ 140 readable bytes),
`parse_imu_file` writes a sidecar `.txt` next to the input (same path with
`.txt` extension) with hard-coded `HWID:0`, `FWID:112`, `WinRate:0`,
`WinLen:0` and zeroed `Config1..3`, before the payload is parsed — so the
sidecar exists even when the payload is empty and the decode returns
`None`. -/
theorem imu_sidecar_effect (fp : String) (bytes : List Nat)
    (mt : PyDateTime) (h : 140 ≤ bytes.length) :
    (∃ lines,
      (parse_imu_file fp (some bytes) mt).sidecar =
        some (splitextStem fp ++ ".txt", lines) ∧
      lines.getD 1 "" = "HWID:0" ∧ lines.getD 2 "" = "FWID:112" ∧
      lines.getD 5 "" = "WinRate:0" ∧ lines.getD 6 "" = "WinLen:0" ∧
      lines.getD 8 "" = "Config1:0" ∧ lines.getD 9 "" = "Config2:0" ∧
      lines.getD 10 "" = "Config3:0") ∧
    (bytes.length < 192 → (parse_imu_file fp (some bytes) mt).table = none) := by
  have hlen : (bytes.drop IMU_HEADER_SIZE).length = bytes.length - 150 := by
    simp [IMU_HEADER_SIZE]
  constructor
  · simp only [parse_imu_file]
    rw [if_neg (by omega)]
    simp only [generate_metadata_file]
    exact ⟨_, rfl, rfl, rfl, rfl, rfl, rfl, rfl, rfl⟩
  · intro hsmall
    simp only [parse_imu_file]
    rw [if_neg (by omega)]
    rw [if_pos (by rw [hlen]; omega)]

/-- Witness for C10 at the concrete 150-byte file: the sidecar is written
and the decode still fails (empty payload). -/
theorem imu_sidecar_effect_witness :
    140 ≤ cf150.length ∧
    (∃ lines,
      (parse_imu_file "a/b.BIN" (some cf150) mt0).sidecar =
        some (splitextStem "a/b.BIN" ++ ".txt", lines) ∧
      lines.getD 1 "" = "HWID:0" ∧ lines.getD 2 "" = "FWID:112" ∧
      lines.getD 5 "" = "WinRate:0" ∧ lines.getD 6 "" = "WinLen:0" ∧
      lines.getD 8 "" = "Config1:0" ∧ lines.getD 9 "" = "Config2:0" ∧
      lines.getD 10 "" = "Config3:0") ∧
    (cf150.length < 192 →
      (parse_imu_file "a/b.BIN" (some cf150) mt0).table = none) :=
  ⟨by decide,
   (imu_sidecar_effect "a/b.BIN" cf150 mt0 (by decide)).1,
   (imu_sidecar_effect "a/b.BIN" cf150 mt0 (by decide)).2⟩

/-! ## Audio stream reconstructor (`audio_parser.py`) -/

/-- `FOOTER_MAGIC = b'\xEF\xEF\xCD\xAB'` (`audio_parser.py` line 102). -/
def FOOTER_MAGIC : List Nat := [0xEF, 0xEF, 0xCD, 0xAB]

/-- `FOOTER_LEN = 14` (line 103). -/
def FOOTER_LEN : Nat := 14

/-- `MARGIN_LEFT = 2` (line 107). -/
def MARGIN_LEFT : Nat := 2

/-- `MARGIN_RIGHT = 2` (line 108). -/
def MARGIN_RIGHT : Nat := 2

/-- `HEADER_SIZE = 142` (`audio_parser.py` line 99) — the audio parser seeks
to offset 142, not 150. -/
def AUD_HEADER_SIZE : Nat := 142

/-- Whether `pat` is an initial segment of `l` (byte-for-byte match). -/
def listStartsWith : List Nat → List Nat → Bool
  | [], _ => true
  | _ :: _, [] => false
  | p :: ps, x :: xs => (p == x) && listStartsWith ps xs

/-- `bytes.find(FOOTER_MAGIC, cursor)` relative to the cursor: index of the
first full occurrence of the footer magic in `l`, if any. -/
def findMagic : List Nat → Option Nat
  | [] => none
  | x :: xs =>
    if listStartsWith FOOTER_MAGIC (x :: xs) then some 0
    else (findMagic xs).map (· + 1)

lemma listStartsWith_length {p l : List Nat}
    (h : listStartsWith p l = true) : p.length ≤ l.length := by
  induction p generalizing l with
  | nil => simp
  | cons a ps ih =>
    cases l with
    | nil => simp [listStartsWith] at h
    | cons x xs =>
      simp only [listStartsWith, Bool.and_eq_true] at h
      simpa using ih h.2

lemma findMagic_le {l : List Nat} {f : Nat} (h : findMagic l = some f) :
    f + 4 ≤ l.length := by
  induction l generalizing f with
  | nil => simp [findMagic] at h
  | cons x xs ih =>
    simp only [findMagic] at h
    by_cases hs : listStartsWith FOOTER_MAGIC (x :: xs)
    · rw [if_pos hs] at h
      have h4 := listStartsWith_length hs
      cases h
      simpa [FOOTER_MAGIC] using h4
    · rw [if_neg hs] at h
      obtain ⟨f', hf', rfl⟩ := Option.map_eq_some'.mp h
      have := ih hf'
      simp only [List.length_cons]
      omega

/-- The drift timestamp decoded at footer position `f`:
`ts_chunk = raw[f+4 : f+12]`, fields `hh, mm, ss = ts_chunk[0..2]` and
`mon, day, yy = ts_chunk[5..7]` (lines 139-145). -/
def tsOf (l : List Nat) (f : Nat) : Nat × Nat × Nat × Nat × Nat × Nat :=
  (l.getD (f + 4) 0, l.getD (f + 5) 0, l.getD (f + 6) 0,
   l.getD (f + 9) 0, l.getD (f + 10) 0, l.getD (f + 11) 0)

/-- State produced by the artifact-removal loop: the clean byte stream, the
number of footers found, and the extracted drift timestamps. -/
structure AudioScanState where
  out : List Nat
  numFooters : Nat
  ts : List (Nat × Nat × Nat × Nat × Nat × Nat)
deriving DecidableEq, Repr

/-- The `while cursor < file_len` loop of `parse_audio_file`
(lines 122-159), expressed on the suffix starting at the cursor:
find the next footer magic; if none, the remainder is appended and the loop
ends; otherwise append up to `max(cursor, f - MARGIN_LEFT)` (Nat
subtraction gives the `max` against the cursor), record the timestamp when
its 8 bytes exist (`len(ts_chunk) == 8`), and resume after
`f + FOOTER_LEN + MARGIN_RIGHT`. -/
def audioScan (l : List Nat) : AudioScanState :=
  match hf : findMagic l with
  | none => ⟨l, 0, []⟩
  | some f =>
    let rest := audioScan (l.drop (f + FOOTER_LEN + MARGIN_RIGHT))
    { out := l.take (f - MARGIN_LEFT) ++ rest.out
      numFooters := rest.numFooters + 1
      ts := (if f + 12 ≤ l.length then [tsOf l f] else []) ++ rest.ts }
termination_by l.length
decreasing_by
  have := findMagic_le hf
  simp only [List.length_drop, FOOTER_LEN, MARGIN_RIGHT]
  omega

lemma audioScan_none {l : List Nat} (h : findMagic l = none) :
    audioScan l = ⟨l, 0, []⟩ := by
  rw [audioScan]
  split
  · rfl
  · rename_i f hf
    rw [h] at hf
    cases hf

lemma audioScan_some {l : List Nat} {f : Nat} (h : findMagic l = some f) :
    audioScan l =
      { out := l.take (f - MARGIN_LEFT) ++
          (audioScan (l.drop (f + FOOTER_LEN + MARGIN_RIGHT))).out
        numFooters :=
          (audioScan (l.drop (f + FOOTER_LEN + MARGIN_RIGHT))).numFooters + 1
        ts := (if f + 12 ≤ l.length then [tsOf l f] else []) ++
          (audioScan (l.drop (f + FOOTER_LEN + MARGIN_RIGHT))).ts } := by
  rw [audioScan]
  split
  · rename_i hf
    rw [h] at hf
    cases hf
  · rename_i f' hf
    rw [h] at hf
    injection hf with hff
    subst hff
    rfl

/-- A scan step is clean when the footer starts at least `MARGIN_LEFT`
bytes past the cursor and the footer plus right margin lie inside the
payload; under cleanliness each footer excises exactly 18 bytes. -/
def audioScanClean (l : List Nat) : Bool :=
  match hf : findMagic l with
  | none => true
  | some f =>
    decide (MARGIN_LEFT ≤ f) &&
      decide (f + FOOTER_LEN + MARGIN_RIGHT ≤ l.length) &&
      audioScanClean (l.drop (f + FOOTER_LEN + MARGIN_RIGHT))
termination_by l.length
decreasing_by
  have := findMagic_le hf
  simp only [List.length_drop, FOOTER_LEN, MARGIN_RIGHT]
  omega

lemma audioScanClean_none {l : List Nat} (h : findMagic l = none) :
    audioScanClean l = true := by
  rw [audioScanClean]
  split
  · rfl
  · rename_i f hf
    rw [h] at hf
    cases hf

lemma audioScanClean_some_eq {l : List Nat} {f : Nat}
    (h : findMagic l = some f) :
    audioScanClean l =
      (decide (MARGIN_LEFT ≤ f) &&
        decide (f + FOOTER_LEN + MARGIN_RIGHT ≤ l.length) &&
        audioScanClean (l.drop (f + FOOTER_LEN + MARGIN_RIGHT))) := by
  rw [audioScanClean]
  split
  · rename_i hf
    rw [h] at hf
    cases hf
  · rename_i f' hf
    rw [h] at hf
    injection hf with hff
    subst hff
    rfl

lemma audioScanClean_some {l : List Nat} {f : Nat}
    (h : findMagic l = some f) (hc : audioScanClean l = true) :
    MARGIN_LEFT ≤ f ∧ f + FOOTER_LEN + MARGIN_RIGHT ≤ l.length ∧
      audioScanClean (l.drop (f + FOOTER_LEN + MARGIN_RIGHT)) = true := by
  rw [audioScanClean] at hc
  split at hc
  · rename_i hf
    rw [h] at hf
    cases hf
  · rename_i f' hf
    rw [h] at hf
    injection hf with hff
    subst hff
    simp only [Bool.and_eq_true, decide_eq_true_eq] at hc
    exact ⟨hc.1.1, hc.1.2, hc.2⟩

lemma audio_excision_aux :
    ∀ n (l : List Nat), l.length ≤ n → audioScanClean l = true →
      (audioScan l).out.length +
        (FOOTER_LEN + MARGIN_LEFT + MARGIN_RIGHT) * (audioScan l).numFooters =
        l.length := by
  intro n
  induction n with
  | zero =>
    intro l hl _
    have hnil : l = [] := List.eq_nil_of_length_eq_zero (by omega)
    subst hnil
    rw [audioScan_none (show findMagic [] = none from rfl)]
    simp
  | succ n ih =>
    intro l hl hc
    cases hf : findMagic l with
    | none =>
      rw [audioScan_none hf]
      simp
    | some f =>
      obtain ⟨h2, h16, hrest⟩ := audioScanClean_some hf hc
      have h4 := findMagic_le hf
      have ihr := ih (l.drop (f + FOOTER_LEN + MARGIN_RIGHT))
        (by
          simp only [List.length_drop, FOOTER_LEN, MARGIN_RIGHT]
          simp only [FOOTER_LEN, MARGIN_RIGHT] at h16
          omega)
        hrest
      rw [audioScan_some hf]
      simp only [List.length_append, List.length_take, List.length_drop,
        FOOTER_LEN, MARGIN_LEFT, MARGIN_RIGHT] at ihr ⊢
      simp only [FOOTER_LEN, MARGIN_LEFT, MARGIN_RIGHT] at h2 h16
      omega

/-- The dict returned by `read_vesper_header` (`binary_utils.py`
lines 12-64): raw sample rate (no substitution), four config words,
sensor-name fallback `"Unknown"`, mtime substituted on invalid BCD. -/
structure VesperMeta where
  deviceIdHex : String
  sensor : String
  sampleRate : Nat
  bitmask : Nat
  config0 : Nat
  config1 : Nat
  config2 : Nat
  config3 : Nat
  startTime : PyDateTime
deriving DecidableEq, Repr

/-- `read_vesper_header` from `binary_utils.py`; assumes at least 140
readable bytes (otherwise the Python code raises into the caller). -/
def read_vesper_header (bytes : List Nat) (header_size : Nat)
    (mtime : PyDateTime) : VesperMeta :=
  let header := bytes.take header_size
  let sensor_name :=
    (asciiDecode? (((header.drop 8).take 16).takeWhile (· ≠ 0))).getD
      "Unknown"
  let h := bcd_to_int (header.getD 132 0)
  let m := bcd_to_int (header.getD 133 0)
  let s := bcd_to_int (header.getD 134 0)
  let month := bcd_to_int (header.getD 137 0)
  let day := bcd_to_int (header.getD 138 0)
  let year := 2000 + bcd_to_int (header.getD 139 0)
  { deviceIdHex := toHexUpper (wordAt header 4)
    sensor := sensor_name
    sampleRate := wordAt header 28
    bitmask := wordAt header 40
    config0 := wordAt header 44
    config1 := wordAt header 48
    config2 := wordAt header 52
    config3 := wordAt header 56
    startTime :=
      if isValidDateTime year month day h m s then
        PyDateTime.mk year month day h m s
      else mtime }

/-- The 4-tuple `parse_audio_file` returns:
`(success, meta, audio_data, timestamps)`; `audio` is the clean byte
stream before the `<i2` cast. -/
structure AudioParseResult where
  ok : Bool
  meta : Option VesperMeta
  audio : Option (List Nat)
  ts : List (Nat × Nat × Nat × Nat × Nat × Nat)
deriving DecidableEq, Repr

/-- `parse_audio_file` from `audio_parser.py` lines 10-192. The payload is
the input after `f.seek(HEADER_SIZE)` with `HEADER_SIZE = 142`. A file
shorter than 140 bytes makes the header decode raise (caught, returning
the failure 4-tuple); `np.frombuffer(..., '<i2')` raises on an odd-length
clean stream, likewise caught. -/
def parse_audio_file (file : Option (List Nat)) (mtime : PyDateTime) :
    AudioParseResult :=
  match file with
  | none => ⟨false, none, none, []⟩
  | some bytes =>
    if bytes.length < 140 then ⟨false, none, none, []⟩
    else
      let meta := read_vesper_header bytes AUD_HEADER_SIZE mtime
      let scan := audioScan (bytes.drop AUD_HEADER_SIZE)
      if scan.out.length % 2 = 0 then ⟨true, some meta, some scan.out, scan.ts⟩
      else ⟨false, none, none, []⟩

/-! ## Audio theorems -/

/-- Claim C4 (code bug): the audio reconstructor begins its footer scan at
byte offset 142, not 150 — `HEADER_SIZE = 142` in `audio_parser.py`
line 99, contradicting both the claim and the parser's own docstring
("Structure: 150-byte Header"). On a 150-byte all-zero file the 8 bytes
at offsets 142..149 end up in the decoded audio stream, where a scan
starting at offset 150 would produce an empty stream. -/
theorem audio_header_offset_142 :
    AUD_HEADER_SIZE = 142 ∧ AUD_HEADER_SIZE ≠ 150 ∧
    (parse_audio_file (some (List.replicate 150 0)) mt0).audio =
      some (List.replicate 8 0) ∧
    ((List.replicate 150 0 : List Nat).drop 150).length = 0 := by
  refine ⟨rfl, by decide, ?_, by decide⟩
  simp only [parse_audio_file]
  rw [if_neg (by decide)]
  rw [show List.drop AUD_HEADER_SIZE (List.replicate 150 0) =
    List.replicate 8 0 from by decide]
  rw [audioScan_none (by decide)]
  decide

/-- Claim C5, counterexample: a payload that is exactly the 4-byte footer
magic. The scan finds `k = 1` footer and outputs 0 bytes, but the claimed
length `4 - 1 * 18 = -14` is negative — even allowing the claimed
discrepancy of `MARGIN_LEFT + MARGIN_RIGHT = 4` bytes at both payload
boundaries, `0` differs from the predicted value by 14 bytes. -/
theorem audio_excision_counterexample :
    (audioScan FOOTER_MAGIC).out.length = 0 ∧
    (audioScan FOOTER_MAGIC).numFooters = 1 ∧
    FOOTER_MAGIC.length = 4 ∧
    (4 : Int) - 18 * 1 +
      ((MARGIN_LEFT : Int) + (MARGIN_RIGHT : Int)) * 2 < 0 := by
  have h1 : findMagic FOOTER_MAGIC = some 0 := rfl
  have h2 : List.drop (0 + FOOTER_LEN + MARGIN_RIGHT) FOOTER_MAGIC =
      ([] : List Nat) := by decide
  constructor
  · rw [audioScan_some h1, h2,
      audioScan_none (show findMagic [] = none from rfl)]
    decide
  refine ⟨?_, by decide, by decide⟩
  rw [audioScan_some h1, h2,
    audioScan_none (show findMagic [] = none from rfl)]

/-- Claim C5 as amended: the excision law
`len(out) = len(payload) - k * (FOOTER_LEN + MARGIN_LEFT + MARGIN_RIGHT)`
holds exactly whenever every footer the scan finds starts at least
`MARGIN_LEFT` bytes past the cursor and ends (footer plus right margin)
inside the payload; a footer that abuts the cursor or is truncated by the
payload end excises fewer bytes (as few as 4), a deficit that can exceed
`MARGIN_LEFT + MARGIN_RIGHT`. -/
theorem audio_excision_clean (l : List Nat) (h : audioScanClean l = true) :
    (audioScan l).out.length +
      (FOOTER_LEN + MARGIN_LEFT + MARGIN_RIGHT) * (audioScan l).numFooters =
      l.length :=
  audio_excision_aux l.length l le_rfl h

/-- A concrete clean payload: 2 leading bytes, one full 14-byte footer,
2 bytes of right margin (total 18 bytes, all excised). -/
def cleanPayload : List Nat :=
  [5, 6] ++ FOOTER_MAGIC ++ [7, 52, 81, 0, 0, 9, 41, 37, 255, 3] ++ [8, 9]

/-- Witness for C5's amended theorem at `cleanPayload`. -/
theorem audio_excision_clean_witness :
    audioScanClean cleanPayload = true ∧
    (audioScan cleanPayload).out.length +
      (FOOTER_LEN + MARGIN_LEFT + MARGIN_RIGHT) *
        (audioScan cleanPayload).numFooters =
      cleanPayload.length := by
  have hc : audioScanClean cleanPayload = true := by
    rw [audioScanClean_some_eq (show findMagic cleanPayload = some 2 from
      rfl)]
    rw [show List.drop (2 + FOOTER_LEN + MARGIN_RIGHT) cleanPayload =
      ([] : List Nat) from by decide]
    rw [audioScanClean_none (show findMagic [] = none from rfl)]
    decide
  exact ⟨hc, audio_excision_clean cleanPayload hc⟩

/-- Claim C6, counterexample: a footer whose month byte is `0x99` and day
byte is `0x99` — far outside the claimed `[1, 0x12]` / `[1, 0x31]` ranges —
still has its timestamp appended: the code performs no validation. -/
theorem audio_ts_counterexample :
    (audioScan (FOOTER_MAGIC ++ [7, 52, 81, 0, 0, 0x99, 0x99, 0x25, 255, 3])).ts =
      [(7, 52, 81, 0x99, 0x99, 0x25)] ∧
    ¬(1 ≤ 0x99 ∧ (0x99 : Nat) ≤ 0x12) := by
  constructor
  · rw [audioScan_some (show findMagic
      (FOOTER_MAGIC ++ [7, 52, 81, 0, 0, 0x99, 0x99, 0x25, 255, 3]) =
        some 0 from rfl)]
    rw [show List.drop (0 + FOOTER_LEN + MARGIN_RIGHT)
      (FOOTER_MAGIC ++ [7, 52, 81, 0, 0, 0x99, 0x99, 0x25, 255, 3]) =
        ([] : List Nat) from by decide]
    rw [audioScan_none (show findMagic [] = none from rfl)]
    decide
  · decide

/-- Claim C6 as amended: for every footer the scan finds, the timestamp
decoded from bytes `[f+4, f+12)` is appended iff those 8 bytes lie within
the payload — no month/day validation is performed — and the audio output
is the same either way (the excision does not depend on the timestamp
bytes' values). A footer whose timestamp bytes are cut off by the payload
end is skipped silently. -/
theorem audio_ts_unconditional (l : List Nat) (f : Nat)
    (h : findMagic l = some f) :
    (audioScan l).ts =
      (if f + 12 ≤ l.length then [tsOf l f] else []) ++
        (audioScan (l.drop (f + FOOTER_LEN + MARGIN_RIGHT))).ts ∧
    (audioScan l).out =
      l.take (f - MARGIN_LEFT) ++
        (audioScan (l.drop (f + FOOTER_LEN + MARGIN_RIGHT))).out := by
  rw [audioScan_some h]
  exact ⟨rfl, rfl⟩

/-- Witness for C6's amended theorem at a concrete payload whose footer
carries an out-of-range month byte. -/
theorem audio_ts_unconditional_witness :
    findMagic (FOOTER_MAGIC ++ [7, 52, 81, 0, 0, 0x99, 0x99, 0x25, 255, 3])
      = some 0 ∧
    (audioScan (FOOTER_MAGIC ++ [7, 52, 81, 0, 0, 0x99, 0x99, 0x25, 255, 3])).ts =
      (if 0 + 12 ≤
          (FOOTER_MAGIC ++ [7, 52, 81, 0, 0, 0x99, 0x99, 0x25, 255, 3]).length
        then [tsOf (FOOTER_MAGIC ++ [7, 52, 81, 0, 0, 0x99, 0x99, 0x25, 255, 3]) 0]
        else []) ++
        (audioScan ((FOOTER_MAGIC ++
          [7, 52, 81, 0, 0, 0x99, 0x99, 0x25, 255, 3]).drop
            (0 + FOOTER_LEN + MARGIN_RIGHT))).ts :=
  ⟨by decide,
   (audio_ts_unconditional
     (FOOTER_MAGIC ++ [7, 52, 81, 0, 0, 0x99, 0x99, 0x25, 255, 3]) 0
     (by decide)).1⟩

/-! ## GPS snapshot decoder (`gps_parser.py`) -/

/-- Python `f"{n:02d}"`: zero-pad to two digits. -/
def pad2 (n : Nat) : String :=
  if n < 10 then "0" ++ toString n else toString n

/-- The output filename built at `gps_parser.py` line 45 from the direct
(non-BCD) header bytes `h, m, s` at offsets 4, 5, 6 and `mon, day, yr` at
offsets 9, 10, 11. -/
def gpsFilename (header : List Nat) : String :=
  "snap." ++ toString (2000 + header.getD 11 0) ++ "_" ++
    pad2 (header.getD 9 0) ++ "_" ++ pad2 (header.getD 10 0) ++ "_" ++
    pad2 (header.getD 4 0) ++ "_" ++ pad2 (header.getD 5 0) ++ "_" ++
    pad2 (header.getD 6 0) ++ "_GC0.dat"

/-- `np.fromfile(..., dtype='<u4')`: consecutive little-endian 32-bit
words; a trailing partial word is dropped. -/
def toWords : List Nat → List Nat
  | b0 :: b1 :: b2 :: b3 :: rest => u32le b0 b1 b2 b3 :: toWords rest
  | _ => []

/-- `astype('<u4').tofile(...)`: serialize one word as 4 LE bytes. -/
def wordToBytesLE (w : Nat) : List Nat :=
  [w % 256, w / 256 % 256, w / 65536 % 256, w / 16777216 % 256]

/-- `parse_gps_file` from `gps_parser.py` lines 8-80. The filesystem
under `<root>/gps/snapshots/` is threaded as an association list
`st : name ↦ bytes`; the function returns the Python boolean result and
the updated store. An already-existing output name is skipped with
`return False` (line 55) without touching the store. -/
def parse_gps_file (filepath : String) (file : Option (List Nat))
    (st : List (String × List Nat)) : Bool × List (String × List Nat) :=
  match file with
  | none => (false, st)
  | some bytes =>
    let header := bytes.take 1024
    if header.length < 16 then (false, st)
    else if u32le (header.getD 0 0) (header.getD 1 0) (header.getD 2 0)
        (header.getD 3 0) ≠ 0xA55AA55A then (false, st)
    else
      let filename := gpsFilename header
      if filename ∈ st.map Prod.fst then (false, st)
      else
        let words := toWords (bytes.drop 1024)
        if words = [] then (false, st)
        else
          (true,
           st ++ [(filename,
             ((words.map gpsWordSwap).map wordToBytesLE).flatten)])

/-- The per-file GPS statistics of `main.py` lines 273-285. -/
structure GpsStats where
  success : Nat
  failed : Nat
  errors : List (String × String)
deriving DecidableEq, Repr

/-- One iteration of the GPS loop in `main.py` lines 273-285: call the
parser, then count the boolean result — `False` increments the
failed counter and appends a `{file, reason}` entry. -/
def gpsLoopStep (filepath : String) (file : Option (List Nat))
    (st : List (String × List Nat)) (stats : GpsStats) :
    List (String × List Nat) × GpsStats :=
  let r := parse_gps_file filepath file st
  if r.1 then (r.2, { stats with success := stats.success + 1 })
  else
    (r.2,
     { stats with
        failed := stats.failed + 1
        errors := stats.errors ++
          [(filepath, "GPS Parser failed (Magic mismatch or empty)")] })

/-- A concrete GPS input: valid magic `5A A5 5A A5` (LE `0xA55AA55A`),
zeroed header remainder, one payload word `1`. -/
def gfile : List Nat :=
  [0x5A, 0xA5, 0x5A, 0xA5] ++ List.replicate 1020 0 ++ [1, 0, 0, 0]

/-- The store after decoding `gfile` into an empty store: the swapped
word `1 ↦ 0x00010000` serialized LE. -/
def gstore1 : List (String × List Nat) :=
  [("snap.2000_00_00_00_00_00_GC0.dat", [0, 0, 1, 0])]

/-! ## GPS theorems -/

/-- Claim C8, counterexample: decoding `gfile` a second time (its output
name now exists) returns `False`, which the coordinator counts as a
failure — `failed` is incremented and a `{file, reason}` entry is
appended — contradicting "logged but not counted as a failure". -/
theorem gps_skip_counterexample :
    (parse_gps_file "g.BIN" (some gfile) []).1 = true ∧
    (parse_gps_file "g.BIN" (some gfile) []).2 = gstore1 ∧
    (parse_gps_file "g.BIN" (some gfile) gstore1).1 = false ∧
    (gpsLoopStep "g.BIN" (some gfile) gstore1 ⟨0, 0, []⟩).2.failed = 1 ∧
    (gpsLoopStep "g.BIN" (some gfile) gstore1 ⟨0, 0, []⟩).2.errors =
      [("g.BIN", "GPS Parser failed (Magic mismatch or empty)")] := by
  decide

/-- Claim C8 as amended: when the computed output name already exists,
`parse_gps_file` skips the write, leaves the store byte-for-byte
unchanged, and returns `False`; the coordinator counts that `False` in
the combined Failed/Skipped statistic and appends a `{file, reason}`
entry. In particular a second run on the same input after a successful
first run is a no-op on the store. -/
theorem gps_skip_amended (fp : String) (file : Option (List Nat))
    (st st1 : List (String × List Nat)) (stats : GpsStats)
    (h : parse_gps_file fp file st = (true, st1)) :
    parse_gps_file fp file st1 = (false, st1) ∧
    gpsLoopStep fp file st1 stats =
      (st1,
       { stats with
          failed := stats.failed + 1
          errors := stats.errors ++
            [(fp, "GPS Parser failed (Magic mismatch or empty)")] }) := by
  cases file with
  | none => simp [parse_gps_file] at h
  | some bytes =>
    have hskip : parse_gps_file fp (some bytes) st1 = (false, st1) := by
      simp only [parse_gps_file] at h ⊢
      by_cases h16 : (bytes.take 1024).length < 16
      · rw [if_pos h16] at h
        simp at h
      · rw [if_neg h16] at h
        rw [if_neg h16]
        by_cases hm : u32le ((bytes.take 1024).getD 0 0)
            ((bytes.take 1024).getD 1 0) ((bytes.take 1024).getD 2 0)
            ((bytes.take 1024).getD 3 0) ≠ 0xA55AA55A
        · rw [if_pos hm] at h
          simp at h
        · rw [if_neg hm] at h
          rw [if_neg hm]
          by_cases hmem : gpsFilename (bytes.take 1024) ∈ st.map Prod.fst
          · rw [if_pos hmem] at h
            simp at h
          · rw [if_neg hmem] at h
            by_cases hw : toWords (bytes.drop 1024) = []
            · rw [if_pos hw] at h
              simp at h
            · rw [if_neg hw] at h
              simp only [Prod.mk.injEq, true_and] at h
              rw [if_pos (by rw [← h]; simp)]
    refine ⟨hskip, ?_⟩
    simp [gpsLoopStep, hskip]

/-- Witness for C8's amended theorem at the concrete input `gfile`. -/
theorem gps_skip_amended_witness :
    parse_gps_file "g.BIN" (some gfile) [] = (true, gstore1) ∧
    parse_gps_file "g.BIN" (some gfile) gstore1 = (false, gstore1) ∧
    gpsLoopStep "g.BIN" (some gfile) gstore1 ⟨0, 0, []⟩ =
      (gstore1,
       ⟨0, 1, [("g.BIN", "GPS Parser failed (Magic mismatch or empty)")]⟩) := by
  have h : parse_gps_file "g.BIN" (some gfile) [] = (true, gstore1) := by
    decide
  have h2 := gps_skip_amended "g.BIN" (some gfile) [] gstore1 ⟨0, 0, []⟩ h
  exact ⟨h, h2.1, h2.2⟩

/-! ## Pipeline coordinator (`main.py`) -/

/-- Outcome of evaluating a Python expression: a value, or a raised
exception carrying its message (caught by the per-file `except` blocks of
`main.py`). -/
inductive PyResult (α : Type) where
  | val (a : α)
  | exc (msg : String)
deriving DecidableEq

/-- Success/failure counters for one sensor family. -/
structure FamilyCount where
  success : Nat
  failed : Nat
deriving DecidableEq, Repr

/-- The run-wide `stats` accumulator of `main.py` lines 114-126:
per-family counters and the shared `errors` list of `{file, reason}`
entries. -/
structure RunStats where
  imu : FamilyCount
  aud : FamilyCount
  gps : FamilyCount
  errors : List (String × String)
deriving DecidableEq, Repr

/-- One iteration of the IMU loop (`main.py` lines 147-174): an exception
is caught and recorded as `IMU Crash: ...`; a `None` or empty frame is
recorded as failed; otherwise the file counts as a success. -/
def imuStep (st : RunStats) (fp : String) (r : PyResult (Option ImuTable)) :
    RunStats :=
  match r with
  | .val (some df) =>
    if df.rows = [] then
      { st with
          imu := ⟨st.imu.success, st.imu.failed + 1⟩
          errors := st.errors ++
            [(fp, "IMU Parser returned None or Empty DF")] }
    else { st with imu := ⟨st.imu.success + 1, st.imu.failed⟩ }
  | .val none =>
    { st with
        imu := ⟨st.imu.success, st.imu.failed + 1⟩
        errors := st.errors ++ [(fp, "IMU Parser returned None or Empty DF")] }
  | .exc msg =>
    { st with
        imu := ⟨st.imu.success, st.imu.failed + 1⟩
        errors := st.errors ++ [(fp, "IMU Crash: " ++ msg)] }

/-- The deterministic part of the post-success segment of the audio loop
(`main.py` lines 231-243), which runs after `success_aud += 1` (line 229)
inside the same `try`. Line 234 divides `len(audio_data)` by the raw
`meta['SampleRate']` (no zero-substitution in `read_vesper_header`), so a
zero rate with non-empty audio raises `ZeroDivisionError`; otherwise
`finisher.generate_metadata_file` (line 239) dispatches on the sensor name
(`finisher.py` lines 51-56), returns early when the sidecar already exists
(line 63, abstracted as `txtExists`), and otherwise reads the absent
`'HWID'` key (`finisher.py` line 68), raising `KeyError`;
`save_aud_wav` catches internally and never raises. -/
def audioPostOutcome (res : AudioParseResult) (txtExists : Bool) :
    PyResult Unit :=
  match res.meta with
  | none => .val ()
  | some m =>
    if 0 < (res.audio.getD []).length ∧ m.sampleRate = 0 then
      .exc "division by zero"
    else if (m.sensor = "IMU10" ∨ m.sensor = "SPH0641") ∧ txtExists = false
      then .exc "'HWID'"
    else .val ()

/-- One iteration of the audio loop (`main.py` lines 212-259). `post` is
the outcome of the post-success segment (lines 231-243): at run time it is
`audioPostOutcome` up to environment faults (any I/O error in the finisher
lands in the same per-file `except`). Note the order in the source:
`success_aud` is incremented at line 229 *before* that segment runs, so a
post-success exception makes the same file also increment `failed_aud`
and append an error entry (line 253-258) — one file, two counters. -/
def audStep (st : RunStats) (fp : String) (r : PyResult AudioParseResult)
    (post : PyResult Unit) : RunStats :=
  match r with
  | .val res =>
    if res.ok then
      match post with
      | .val _ => { st with aud := ⟨st.aud.success + 1, st.aud.failed⟩ }
      | .exc msg =>
        { st with
            aud := ⟨st.aud.success + 1, st.aud.failed + 1⟩
            errors := st.errors ++ [(fp, "AUDIO Crash: " ++ msg)] }
    else
      { st with
          aud := ⟨st.aud.success, st.aud.failed + 1⟩
          errors := st.errors ++
            [(fp, "AUDIO Parser returned None or Empty DF")] }
  | .exc msg =>
    { st with
        aud := ⟨st.aud.success, st.aud.failed + 1⟩
        errors := st.errors ++ [(fp, "AUDIO Crash: " ++ msg)] }

/-- Whether an audio file is double-counted: its parse succeeded
(`success_aud` incremented) and the post-success segment then raised
(`failed_aud` incremented too). -/
def audStepDouble (r : PyResult AudioParseResult) (post : PyResult Unit) :
    Nat :=
  match r with
  | .val res =>
    if res.ok then
      match post with
      | .val _ => 0
      | .exc _ => 1
    else 0
  | .exc _ => 0

/-- One iteration of the GPS loop (`main.py` lines 273-285); the parser
catches exceptions internally and surfaces only a boolean. -/
def gpsStep (st : RunStats) (fp : String) (ok : Bool) : RunStats :=
  if ok then { st with gps := ⟨st.gps.success + 1, st.gps.failed⟩ }
  else
    { st with
        gps := ⟨st.gps.success, st.gps.failed + 1⟩
        errors := st.errors ++
          [(fp, "GPS Parser failed (Magic mismatch or empty)")] }

/-- The files of one session as handed over by the crawler, each paired
with the outcome its decode produces at run time; an audio file
additionally carries the outcome of its post-success segment
(`main.py` lines 231-243). -/
structure SessionFiles where
  imu : List (String × PyResult (Option ImuTable))
  aud : List (String × PyResult AudioParseResult × PyResult Unit)
  gps : List (String × Bool)

/-- The IMU loop over one session's files. -/
def processImuFiles (st : RunStats)
    (files : List (String × PyResult (Option ImuTable))) : RunStats :=
  files.foldl (fun s p => imuStep s p.1 p.2) st

/-- The audio loop over one session's files. -/
def processAudFiles (st : RunStats)
    (files : List (String × PyResult AudioParseResult × PyResult Unit)) :
    RunStats :=
  files.foldl (fun s p => audStep s p.1 p.2.1 p.2.2) st

/-- Number of double-counted audio files in a list (parse succeeded, then
the post-success segment raised). -/
def audFilesDouble
    (files : List (String × PyResult AudioParseResult × PyResult Unit)) :
    Nat :=
  (files.map (fun p => audStepDouble p.2.1 p.2.2)).sum

/-- The GPS loop over one session's files. -/
def processGpsFiles (st : RunStats) (files : List (String × Bool)) :
    RunStats :=
  files.foldl (fun s p => gpsStep s p.1 p.2) st

/-- One session: the three family loops in the order of `main.py`. -/
def processSession (st : RunStats) (s : SessionFiles) : RunStats :=
  processGpsFiles (processAudFiles (processImuFiles st s.imu) s.aud) s.gps

/-- The main loop over all sessions, from the zeroed accumulator. -/
def processRun (sessions : List SessionFiles) : RunStats :=
  sessions.foldl processSession ⟨⟨0, 0⟩, ⟨0, 0⟩, ⟨0, 0⟩, []⟩

/-- The double count is reachable from a concrete source-level input: a
150-byte all-zero audio file parses successfully (`ok = true`) with the
raw header `SampleRate = 0` and 8 bytes of audio, so `main.py` line 234
raises `ZeroDivisionError` after `success_aud += 1` — the same file then
also increments `failed_aud` and appends an `AUDIO Crash` entry. -/
lemma aud_double_count_reachable (st : RunStats) (fp : String) :
    (parse_audio_file (some (List.replicate 150 0)) mt0).ok = true ∧
    audioPostOutcome (parse_audio_file (some (List.replicate 150 0)) mt0)
      false = .exc "division by zero" ∧
    (audStep st fp
        (.val (parse_audio_file (some (List.replicate 150 0)) mt0))
        (audioPostOutcome (parse_audio_file (some (List.replicate 150 0))
          mt0) false)).aud.success = st.aud.success + 1 ∧
    (audStep st fp
        (.val (parse_audio_file (some (List.replicate 150 0)) mt0))
        (audioPostOutcome (parse_audio_file (some (List.replicate 150 0))
          mt0) false)).aud.failed = st.aud.failed + 1 ∧
    (audStep st fp
        (.val (parse_audio_file (some (List.replicate 150 0)) mt0))
        (audioPostOutcome (parse_audio_file (some (List.replicate 150 0))
          mt0) false)).errors =
      st.errors ++ [(fp, "AUDIO Crash: division by zero")] ∧
    audStepDouble (.val (parse_audio_file (some (List.replicate 150 0)) mt0))
      (audioPostOutcome (parse_audio_file (some (List.replicate 150 0)) mt0)
        false) = 1 := by
  have hres : parse_audio_file (some (List.replicate 150 0)) mt0 =
      ⟨true,
       some (read_vesper_header (List.replicate 150 0) AUD_HEADER_SIZE mt0),
       some (List.replicate 8 0), []⟩ := by
    simp only [parse_audio_file]
    rw [if_neg (by decide)]
    rw [show List.drop AUD_HEADER_SIZE (List.replicate 150 0) =
      List.replicate 8 0 from by decide]
    rw [audioScan_none (by decide)]
    rfl
  have hpost : audioPostOutcome
      (⟨true,
        some (read_vesper_header (List.replicate 150 0) AUD_HEADER_SIZE mt0),
        some (List.replicate 8 0), []⟩ : AudioParseResult) false =
      .exc "division by zero" := by
    decide
  refine ⟨by rw [hres], by rw [hres]; exact hpost, ?_, ?_, ?_, ?_⟩ <;>
    (rw [hres, hpost]; simp [audStep, audStepDouble])

lemma imuStep_spec (st : RunStats) (fp : String)
    (r : PyResult (Option ImuTable)) :
    (imuStep st fp r).imu.success + (imuStep st fp r).imu.failed =
      st.imu.success + st.imu.failed + 1 ∧
    (imuStep st fp r).aud = st.aud ∧ (imuStep st fp r).gps = st.gps ∧
    (imuStep st fp r).errors.length + st.imu.failed =
      st.errors.length + (imuStep st fp r).imu.failed := by
  match r with
  | .val (some df) =>
    by_cases hr : df.rows = [] <;>
      simp [imuStep, hr] <;> omega
  | .val none => simp [imuStep] <;> omega
  | .exc msg => simp [imuStep] <;> omega

lemma audStep_spec (st : RunStats) (fp : String)
    (r : PyResult AudioParseResult) (post : PyResult Unit) :
    (audStep st fp r post).aud.success + (audStep st fp r post).aud.failed =
      st.aud.success + st.aud.failed + 1 + audStepDouble r post ∧
    (audStep st fp r post).imu = st.imu ∧
    (audStep st fp r post).gps = st.gps ∧
    (audStep st fp r post).errors.length + st.aud.failed =
      st.errors.length + (audStep st fp r post).aud.failed := by
  match r, post with
  | .val res, .val u =>
    by_cases hr : res.ok <;>
      simp [audStep, audStepDouble, hr] <;> omega
  | .val res, .exc msg =>
    by_cases hr : res.ok <;>
      simp [audStep, audStepDouble, hr] <;> omega
  | .exc msg, _ => simp [audStep, audStepDouble] <;> omega

lemma gpsStep_spec (st : RunStats) (fp : String) (ok : Bool) :
    (gpsStep st fp ok).gps.success + (gpsStep st fp ok).gps.failed =
      st.gps.success + st.gps.failed + 1 ∧
    (gpsStep st fp ok).imu = st.imu ∧ (gpsStep st fp ok).aud = st.aud ∧
    (gpsStep st fp ok).errors.length + st.gps.failed =
      st.errors.length + (gpsStep st fp ok).gps.failed := by
  by_cases hr : ok = true <;> simp [gpsStep, hr] <;> omega

lemma processImuFiles_spec (files : List (String × PyResult (Option ImuTable))) :
    ∀ st : RunStats,
      (processImuFiles st files).imu.success +
          (processImuFiles st files).imu.failed =
        st.imu.success + st.imu.failed + files.length ∧
      (processImuFiles st files).aud = st.aud ∧
      (processImuFiles st files).gps = st.gps ∧
      (processImuFiles st files).errors.length + st.imu.failed =
        st.errors.length + (processImuFiles st files).imu.failed := by
  induction files with
  | nil => intro st; simp [processImuFiles]
  | cons p rest ih =>
    intro st
    obtain ⟨hs1, hs2, hs3, hs4⟩ := imuStep_spec st p.1 p.2
    obtain ⟨hr1, hr2, hr3, hr4⟩ := ih (imuStep st p.1 p.2)
    simp only [processImuFiles, List.foldl_cons, List.length_cons] at *
    refine ⟨by omega, by rw [hr2, hs2], by rw [hr3, hs3], by omega⟩

lemma processAudFiles_spec
    (files : List (String × PyResult AudioParseResult × PyResult Unit)) :
    ∀ st : RunStats,
      (processAudFiles st files).aud.success +
          (processAudFiles st files).aud.failed =
        st.aud.success + st.aud.failed + files.length +
          audFilesDouble files ∧
      (processAudFiles st files).imu = st.imu ∧
      (processAudFiles st files).gps = st.gps ∧
      (processAudFiles st files).errors.length + st.aud.failed =
        st.errors.length + (processAudFiles st files).aud.failed := by
  induction files with
  | nil => intro st; simp [processAudFiles, audFilesDouble]
  | cons p rest ih =>
    intro st
    obtain ⟨hs1, hs2, hs3, hs4⟩ := audStep_spec st p.1 p.2.1 p.2.2
    obtain ⟨hr1, hr2, hr3, hr4⟩ := ih (audStep st p.1 p.2.1 p.2.2)
    simp only [processAudFiles, audFilesDouble, List.foldl_cons,
      List.length_cons, List.map_cons, List.sum_cons] at *
    refine ⟨by omega, by rw [hr2, hs2], by rw [hr3, hs3], by omega⟩

lemma processGpsFiles_spec (files : List (String × Bool)) :
    ∀ st : RunStats,
      (processGpsFiles st files).gps.success +
          (processGpsFiles st files).gps.failed =
        st.gps.success + st.gps.failed + files.length ∧
      (processGpsFiles st files).imu = st.imu ∧
      (processGpsFiles st files).aud = st.aud ∧
      (processGpsFiles st files).errors.length + st.gps.failed =
        st.errors.length + (processGpsFiles st files).gps.failed := by
  induction files with
  | nil => intro st; simp [processGpsFiles]
  | cons p rest ih =>
    intro st
    obtain ⟨hs1, hs2, hs3, hs4⟩ := gpsStep_spec st p.1 p.2
    obtain ⟨hr1, hr2, hr3, hr4⟩ := ih (gpsStep st p.1 p.2)
    simp only [processGpsFiles, List.foldl_cons, List.length_cons] at *
    refine ⟨by omega, by rw [hr2, hs2], by rw [hr3, hs3], by omega⟩

lemma processSession_spec (s : SessionFiles) (st : RunStats) :
    (processSession st s).imu.success + (processSession st s).imu.failed =
      st.imu.success + st.imu.failed + s.imu.length ∧
    (processSession st s).aud.success + (processSession st s).aud.failed =
      st.aud.success + st.aud.failed + s.aud.length + audFilesDouble s.aud ∧
    (processSession st s).gps.success + (processSession st s).gps.failed =
      st.gps.success + st.gps.failed + s.gps.length ∧
    (processSession st s).errors.length +
        (st.imu.failed + st.aud.failed + st.gps.failed) =
      st.errors.length +
        ((processSession st s).imu.failed + (processSession st s).aud.failed +
          (processSession st s).gps.failed) := by
  obtain ⟨h1c, h1a, h1g, h1e⟩ := processImuFiles_spec s.imu st
  obtain ⟨h2c, h2i, h2g, h2e⟩ :=
    processAudFiles_spec s.aud (processImuFiles st s.imu)
  obtain ⟨h3c, h3i, h3a, h3e⟩ := processGpsFiles_spec s.gps
    (processAudFiles (processImuFiles st s.imu) s.aud)
  simp only [processSession]
  have e1 : (processGpsFiles (processAudFiles (processImuFiles st s.imu)
      s.aud) s.gps).imu.failed = (processImuFiles st s.imu).imu.failed := by
    rw [h3i, h2i]
  have e2 : (processGpsFiles (processAudFiles (processImuFiles st s.imu)
        s.aud) s.gps).aud.failed =
      (processAudFiles (processImuFiles st s.imu) s.aud).aud.failed := by
    rw [h3a]
  have e3 : (processAudFiles (processImuFiles st s.imu) s.aud).gps.failed =
      st.gps.failed := by
    rw [h2g, h1g]
  have e4 : (processImuFiles st s.imu).aud.failed = st.aud.failed := by
    rw [h1a]
  refine ⟨?_, ?_, ?_, by omega⟩
  · rw [h3i, h2i]
    exact h1c
  · rw [h3a, h2c, h1a]
  · rw [h3c, h2g, h1g]

/-- Claim C9: for every run (every session, every file of every family),
each per-file failure is caught and recorded as a `{file, reason}` entry
in the run-wide accumulator and never aborts the remaining processing.
The final counters account for every single input file:
`success + failed` equals the total file count for IMU and GPS, and for
audio it equals the total plus the number of double-counted files — a
file whose parse succeeded (`success_aud += 1` at `main.py` line 229) and
whose post-success segment then raised into the same per-file `except`
(`failed_aud += 1`, one more error entry); the error list always holds
exactly one entry per failed count. -/
theorem coordinator_isolation (sessions : List SessionFiles) :
    (processRun sessions).imu.success + (processRun sessions).imu.failed =
      (sessions.map (fun s => s.imu.length)).sum ∧
    (processRun sessions).aud.success + (processRun sessions).aud.failed =
      (sessions.map (fun s => s.aud.length)).sum +
        (sessions.map (fun s => audFilesDouble s.aud)).sum ∧
    (processRun sessions).gps.success + (processRun sessions).gps.failed =
      (sessions.map (fun s => s.gps.length)).sum ∧
    (processRun sessions).errors.length =
      (processRun sessions).imu.failed + (processRun sessions).aud.failed +
        (processRun sessions).gps.failed := by
  suffices h : ∀ st : RunStats,
      (sessions.foldl processSession st).imu.success +
          (sessions.foldl processSession st).imu.failed =
        st.imu.success + st.imu.failed +
          (sessions.map (fun s => s.imu.length)).sum ∧
      (sessions.foldl processSession st).aud.success +
          (sessions.foldl processSession st).aud.failed =
        st.aud.success + st.aud.failed +
          (sessions.map (fun s => s.aud.length)).sum +
          (sessions.map (fun s => audFilesDouble s.aud)).sum ∧
      (sessions.foldl processSession st).gps.success +
          (sessions.foldl processSession st).gps.failed =
        st.gps.success + st.gps.failed +
          (sessions.map (fun s => s.gps.length)).sum ∧
      (sessions.foldl processSession st).errors.length +
          (st.imu.failed + st.aud.failed + st.gps.failed) =
        st.errors.length +
          ((sessions.foldl processSession st).imu.failed +
            (sessions.foldl processSession st).aud.failed +
            (sessions.foldl processSession st).gps.failed) by
    have := h ⟨⟨0, 0⟩, ⟨0, 0⟩, ⟨0, 0⟩, []⟩
    simp only [processRun]
    simpa using this
  induction sessions with
  | nil => intro st; simp
  | cons s rest ih =>
    intro st
    have hsess := processSession_spec s st
    have hrest := ih (processSession st s)
    simp only [List.foldl_cons, List.map_cons, List.sum_cons] at hrest ⊢
    omega

end WildlifeTag
